import Mathlib

/-!
Shallow embedding of `ndarray_listener/ndarray_listener.py` (glimix/ndarray_listener).

The class `ndarray_listener(ndarray)` keeps, on every instance, an attribute
`_listeners` holding a Python list of callables.  That list is shared *by
reference* between instances: `__array_finalize__` assigns the very same list
object to any array numpy derives from an observable one.  We model the heap
of listener lists as a store `Seqs` (a list of listener lists, addressed by
index), and each array carries the index `lref` of its list in the store.

Listeners are modelled by an identifier plus a callability flag; invoking the
listeners is recorded as a trace of events `(listener id, snapshot)`.  A
non-callable entry raises `TypeError` when invoked, aborting the loop.
-/

namespace NdarrayListener

abbrev Val := Int

/-- A registered listener: an identity and whether it is callable.  Invoking a
callable listener records an event; invoking a non-callable one raises. -/
structure Listener where
  lid : Nat
  callable : Bool
deriving DecidableEq, Repr

/-- The store of listener lists.  Index `r` is the Python list object that the
instances with `lref = r` all alias. -/
abbrev Seqs := List (List Listener)

/-- Reading a listener list out of the store (Python list indexing). -/
def getSeq : Seqs → Nat → List Listener
  | [], _ => []
  | xs :: _, 0 => xs
  | _ :: s, r + 1 => getSeq s r

/-- Replacing a listener list in the store (in-place mutation of that list). -/
def setSeq : Seqs → Nat → List Listener → Seqs
  | [], _, _ => []
  | _ :: s, 0, xs => xs :: s
  | y :: s, r + 1, xs => y :: setSeq s r xs

/-- An `ndarray_listener` instance: its numeric contents (flattened; a
zero-dimensional scalar is a one-element list) and the store index of its
`_listeners` list. -/
structure NDL where
  data : List Val
  lref : Nat
deriving DecidableEq, Repr

/-- A notification event: the listener invoked and the snapshot
`asarray(self)` it received. -/
abbrev Event := Nat × List Val

/-- The name of the internal bookkeeping attribute. -/
def listenersAttr : String := "_listeners"

/-- The loop body of `__notify`: `for l in self._listeners: l(asarray(self))`.
Returns the events of the calls performed and, if a non-callable entry was
reached, the `TypeError` it raised (which aborts the loop). -/
def notifyRun : List Listener → List Val → List Event × Option String
  | [], _ => ([], none)
  | l :: ls, snap =>
    if l.callable then
      let rest := notifyRun ls snap
      ((l.lid, snap) :: rest.1, rest.2)
    else
      ([], some "TypeError: not callable")

/-- Result of a mutating operation: the trace of listener invocations it
performed and either the post-state of the instance or the propagated
exception. -/
structure Outcome (α : Type) where
  events : List Event
  result : Except String α

/-- `self.__notify()` on instance `a` under store `s`: iterate the current
`_listeners` list, passing `asarray(self)` (the current contents). -/
def runNotify (s : Seqs) (a : NDL) : Outcome NDL :=
  let p := notifyRun (getSeq s a.lref) a.data
  { events := p.1,
    result := match p.2 with
      | none => .ok a
      | some e => .error e }

/-- The underlying `ndarray.__setitem__` for a single in-range index:
out-of-range raises `IndexError`. -/
def ndarray_setitem (data : List Val) (i : Nat) (v : Val) : Except String (List Val) :=
  if i < data.length then .ok (data.set i v) else .error "IndexError"

/-- The underlying full-slice write `ndarray.__setitem__(slice(None), v)` with
a scalar right-hand side: broadcast `v` over every element. -/
def ndarray_setitem_full (data : List Val) (v : Val) : List Val :=
  data.map (fun _ => v)

/-- The underlying `ndarray.itemset(v)` with a bare value: valid only on a
one-element (or zero-dimensional) array, otherwise `ValueError`. -/
def ndarray_itemset1 (data : List Val) (v : Val) : Except String (List Val) :=
  if data.length = 1 then .ok [v] else .error "ValueError"

/-- `ndarray_listener.__setitem__` (single index): delegate the write to the
superclass, then `self.__notify()`. -/
def setitem (s : Seqs) (a : NDL) (i : Nat) (v : Val) : Outcome NDL :=
  match ndarray_setitem a.data i v with
  | .error e => { events := [], result := .error e }
  | .ok d => runNotify s { a with data := d }

/-- `ndarray_listener.__setitem__` (full-slice write `a[:] = v`): delegate,
then `self.__notify()`. -/
def setitem_full (s : Seqs) (a : NDL) (v : Val) : Outcome NDL :=
  runNotify s { a with data := ndarray_setitem_full a.data v }

/-- `ndarray_listener.itemset` (bare value form): delegate to
`ndarray.itemset`, then `self.__notify()`. -/
def itemset (s : Seqs) (a : NDL) (v : Val) : Outcome NDL :=
  match ndarray_itemset1 a.data v with
  | .error e => { events := [], result := .error e }
  | .ok d => runNotify s { a with data := d }

/-- `ndarray_listener.__setattr__`: the ordinary attribute assignment has
already produced the post-assignment instance `a2`; then, unless the
attribute being assigned is `_listeners`, invoke `self.__notify()`. -/
def ndl_setattr (s : Seqs) (name : String) (a2 : NDL) : Outcome NDL :=
  if name = listenersAttr then { events := [], result := .ok a2 }
  else runNotify s a2

/-- `ndarray_listener.talk_to`: `self._listeners.append(me)` — an in-place
mutation of the shared list, visible through every instance aliasing it.  It
performs no validation and cannot notify (it never touches `__notify`). -/
def talk_to (s : Seqs) (a : NDL) (me : Listener) : Seqs :=
  setSeq s a.lref (getSeq s a.lref ++ [me])

/-- Result of constructing an instance: the instance, the updated store, and
the trace of any listener invocations the construction performed. -/
structure ConstrOut where
  arr : NDL
  store : Seqs
  events : List Event

/-- `ndarray_listener.__array_finalize__` building an instance with contents
`data` from base object `obj`: `self._listeners = getattr(obj, "_listeners",
[])`.  `objListeners` is `obj`'s `_listeners` store index when `obj` carries
one; otherwise a fresh empty list is allocated.  The assignment itself goes
through `__setattr__`, whose `_listeners` guard suppresses notification. -/
def array_finalize (s : Seqs) (data : List Val) (objListeners : Option Nat) : ConstrOut :=
  let rs : Nat × Seqs :=
    match objListeners with
    | some r => (r, s)
    | none => (s.length, s ++ [[]])
  let assigned : NDL := { data := data, lref := rs.1 }
  let out := ndl_setattr rs.2 listenersAttr assigned
  { arr := assigned, store := rs.2, events := out.events }

/-- `ndarray_listener.__new__`: `obj = asarray(input_array).view(cls)` — the
`view` triggers `__array_finalize__` with a plain-`ndarray` base (no
`_listeners`) — then, if the input has a `_listeners` attribute, `obj`'s list
is rebound to the input's very list object (again through `__setattr__`). -/
def ndl_new (s : Seqs) (data : List Val) (input : Option NDL) : ConstrOut :=
  let fin := array_finalize s data none
  match input with
  | some src =>
    let shared : NDL := { fin.arr with lref := src.lref }
    let out := ndl_setattr fin.store listenersAttr shared
    { arr := shared, store := fin.store, events := fin.events ++ out.events }
  | none => fin

/-- `a.copy()`: numpy duplicates the buffer and calls `__array_finalize__`
with `obj = a`, so the copy receives `a`'s own `_listeners` list object. -/
def ndl_copy (s : Seqs) (a : NDL) : ConstrOut :=
  array_finalize s a.data (some a.lref)

/-- `a[:]` (full-slice read through `ndarray_listener.__getitem__`): the
superclass returns a view, finalized from `a`, hence already an
`ndarray_listener`; the `isinstance` branch returns it unchanged. -/
def getitem_slice (s : Seqs) (a : NDL) : ConstrOut :=
  array_finalize s a.data (some a.lref)

/-- `a[i]` on a one-dimensional array through `ndarray_listener.__getitem__`:
the superclass returns a bare numpy scalar (not an `ndarray_listener`), so it
is re-wrapped by `ndarray_listener(v)` — a fresh empty `_listeners` list —
and each listener of `self._listeners` is then appended individually via
`talk_to`.  Out-of-range raises `IndexError`. -/
def getitem_index (s : Seqs) (a : NDL) (i : Nat) : Except String (NDL × Seqs × List Event) :=
  match a.data.get? i with
  | some raw =>
    let c := ndl_new s [raw] none
    let s2 := (getSeq c.store a.lref).foldl (fun st l => talk_to st c.arr l) c.store
    .ok (c.arr, s2, c.events)
  | none => .error "IndexError"

/-! ### Store lemmas -/

theorem length_setSeq (s : Seqs) (r : Nat) (xs : List Listener) :
    (setSeq s r xs).length = s.length := by
  induction s generalizing r with
  | nil => rfl
  | cons y t ih =>
    cases r with
    | zero => rfl
    | succ r => simp [setSeq, ih]

theorem getSeq_setSeq_self (s : Seqs) (r : Nat) (xs : List Listener)
    (hr : r < s.length) : getSeq (setSeq s r xs) r = xs := by
  induction s generalizing r with
  | nil => simp at hr
  | cons y t ih =>
    cases r with
    | zero => rfl
    | succ r => exact ih r (by simpa using hr)

theorem getSeq_setSeq_ne (s : Seqs) (r r' : Nat) (xs : List Listener)
    (h : r' ≠ r) : getSeq (setSeq s r xs) r' = getSeq s r' := by
  induction s generalizing r r' with
  | nil => rfl
  | cons y t ih =>
    cases r with
    | zero =>
      cases r' with
      | zero => exact absurd rfl h
      | succ r' => rfl
    | succ r =>
      cases r' with
      | zero => rfl
      | succ r' => exact ih r r' (by omega)

theorem getSeq_append_left (s t : Seqs) (r : Nat) (hr : r < s.length) :
    getSeq (s ++ t) r = getSeq s r := by
  induction s generalizing r with
  | nil => simp at hr
  | cons y u ih =>
    cases r with
    | zero => rfl
    | succ r => exact ih r (by simpa using hr)

theorem getSeq_append_right (s t : Seqs) : getSeq (s ++ t) s.length = getSeq t 0 := by
  induction s with
  | nil => rfl
  | cons y u ih => simpa [getSeq] using ih

/-- Appending a fresh empty list to the store changes no read: pre-existing
indices are below the append point, and out-of-range reads give `[]` on both
sides. -/
theorem getSeq_append_empty (s : Seqs) (r : Nat) : getSeq (s ++ [[]]) r = getSeq s r := by
  induction s generalizing r with
  | nil => cases r with
    | zero => rfl
    | succ r => cases r <;> rfl
  | cons y u ih => cases r with
    | zero => rfl
    | succ r => exact ih r

theorem length_talk_to (s : Seqs) (a : NDL) (me : Listener) :
    (talk_to s a me).length = s.length := length_setSeq ..

theorem getSeq_talk_to_self (s : Seqs) (a : NDL) (me : Listener)
    (ha : a.lref < s.length) :
    getSeq (talk_to s a me) a.lref = getSeq s a.lref ++ [me] :=
  getSeq_setSeq_self _ _ _ ha

theorem getSeq_talk_to_ne (s : Seqs) (a : NDL) (me : Listener) (r : Nat)
    (h : r ≠ a.lref) : getSeq (talk_to s a me) r = getSeq s r :=
  getSeq_setSeq_ne _ _ _ _ h

theorem fold_talk_to_self (x : NDL) (ls : List Listener) :
    ∀ s : Seqs, x.lref < s.length →
      getSeq (ls.foldl (fun st l => talk_to st x l) s) x.lref
        = getSeq s x.lref ++ ls := by
  induction ls with
  | nil => intro s _; simp
  | cons l ls ih =>
    intro s hx
    have hx2 : x.lref < (talk_to s x l).length := by
      simpa [length_talk_to] using hx
    calc getSeq ((l :: ls).foldl (fun st l => talk_to st x l) s) x.lref
        = getSeq (ls.foldl (fun st l => talk_to st x l) (talk_to s x l)) x.lref := rfl
      _ = getSeq (talk_to s x l) x.lref ++ ls := ih _ hx2
      _ = (getSeq s x.lref ++ [l]) ++ ls := by rw [getSeq_talk_to_self _ _ _ hx]
      _ = getSeq s x.lref ++ (l :: ls) := by simp

theorem fold_talk_to_other (x : NDL) (r : Nat) (hr : r ≠ x.lref) (ls : List Listener) :
    ∀ s : Seqs,
      getSeq (ls.foldl (fun st l => talk_to st x l) s) r = getSeq s r := by
  induction ls with
  | nil => intro s; rfl
  | cons l ls ih =>
    intro s
    calc getSeq ((l :: ls).foldl (fun st l => talk_to st x l) s) r
        = getSeq (ls.foldl (fun st l => talk_to st x l) (talk_to s x l)) r := rfl
      _ = getSeq (talk_to s x l) r := ih _
      _ = getSeq s r := getSeq_talk_to_ne _ _ _ _ hr

theorem length_fold_talk_to (x : NDL) (ls : List Listener) :
    ∀ s : Seqs, (ls.foldl (fun st l => talk_to st x l) s).length = s.length := by
  induction ls with
  | nil => intro s; rfl
  | cons l ls ih =>
    intro s
    calc ((l :: ls).foldl (fun st l => talk_to st x l) s).length
        = (ls.foldl (fun st l => talk_to st x l) (talk_to s x l)).length := rfl
      _ = (talk_to s x l).length := ih _
      _ = s.length := length_talk_to ..

/-! ### Notification lemmas -/

theorem notifyRun_all_callable (d : List Val) (seq : List Listener)
    (hc : ∀ l ∈ seq, l.callable = true) :
    notifyRun seq d = (seq.map (fun l => (l.lid, d)), none) := by
  induction seq with
  | nil => rfl
  | cons l ls ih =>
    have hl : l.callable = true := hc l (by simp)
    have hls : ∀ l ∈ ls, l.callable = true := fun x hx => hc x (by simp [hx])
    simp [notifyRun, hl, ih hls]

theorem notifyRun_noncallable (d : List Val) (l : Listener)
    (hnc : l.callable = false) (seq : List Listener) (hmem : l ∈ seq) :
    (notifyRun seq d).2 = some "TypeError: not callable" := by
  induction seq with
  | nil => simp at hmem
  | cons y ls ih =>
    by_cases hy : y.callable = true
    · have hmem2 : l ∈ ls := by
        rcases List.mem_cons.mp hmem with h | h
        · exact absurd (h ▸ hy) (by simp [hnc])
        · exact h
      simp [notifyRun, hy, ih hmem2]
    · simp [notifyRun, hy]

theorem runNotify_all_callable (s : Seqs) (a : NDL)
    (hc : ∀ l ∈ getSeq s a.lref, l.callable = true) :
    runNotify s a =
      { events := (getSeq s a.lref).map (fun l => (l.lid, a.data)),
        result := .ok a } := by
  simp [runNotify, notifyRun_all_callable _ _ hc]

theorem runNotify_noncallable (s : Seqs) (a : NDL) (l : Listener)
    (hnc : l.callable = false) (hmem : l ∈ getSeq s a.lref) :
    (runNotify s a).result = .error "TypeError: not callable" := by
  simp [runNotify, notifyRun_noncallable a.data l hnc _ hmem]

/-- Counting an event in an all-same-snapshot trace counts the listeners of
that identity, provided identities are unambiguous in the sequence. -/
theorem count_event_map (seq : List Listener) (d : List Val) (L : Listener)
    (hid : ∀ l ∈ seq, l.lid = L.lid → l = L) :
    (seq.map (fun l => (l.lid, d))).count (L.lid, d) = seq.count L := by
  induction seq with
  | nil => rfl
  | cons l ls ih =>
    have hls : ∀ x ∈ ls, x.lid = L.lid → x = L := fun x hx => hid x (by simp [hx])
    by_cases h : l = L
    · subst h
      simp [List.count_cons, ih hls]
    · have hne : l.lid ≠ L.lid := fun he => h (hid l (by simp) he)
      have hpair : ¬ ((l.lid, d) = (L.lid, d)) := by
        intro hp
        exact hne (congrArg Prod.fst hp)
      simp [List.count_cons, ih hls, h, hpair]

/-- A listener belonging to the sequence shows up (by identity) in the trace
of an all-callable notification. -/
theorem lid_mem_trace (seq : List Listener) (d : List Val) (L : Listener)
    (hL : L ∈ seq) :
    L.lid ∈ (seq.map (fun l => (l.lid, d))).map Prod.fst := by
  simp only [List.map_map, List.mem_map]
  exact ⟨L, hL, rfl⟩

/-- An identity foreign to the sequence never shows up in the trace. -/
theorem lid_not_mem_trace (seq : List Listener) (d : List Val) (n : Nat)
    (hfresh : ∀ l ∈ seq, l.lid ≠ n) :
    n ∉ (seq.map (fun l => (l.lid, d))).map Prod.fst := by
  simp only [List.map_map, List.mem_map]
  rintro ⟨l, hl, he⟩
  exact hfresh l hl he

/-! ### Claims -/

/-- C2: for an Observable Array `a` with listener `L` subscribed (appearing
once, with an unambiguous identity) and an in-range index `i`, the write
`a[i] = v` performs the element assignment and then invokes `L` exactly once,
passing the full post-write contents; likewise the full-slice write
`a[:] = v`. -/
theorem C2_write_then_notify (s : Seqs) (a : NDL) (L : Listener) (i : Nat) (v : Val)
    (hi : i < a.data.length)
    (hc : ∀ l ∈ getSeq s a.lref, l.callable = true)
    (hL : (getSeq s a.lref).count L = 1)
    (hid : ∀ l ∈ getSeq s a.lref, l.lid = L.lid → l = L) :
    (setitem s a i v).result = .ok ⟨a.data.set i v, a.lref⟩ ∧
    (setitem s a i v).events.count (L.lid, a.data.set i v) = 1 ∧
    (setitem_full s a v).result = .ok ⟨a.data.map (fun _ => v), a.lref⟩ ∧
    (setitem_full s a v).events.count (L.lid, a.data.map (fun _ => v)) = 1 := by
  have hrn : ∀ d : List Val, runNotify s ⟨d, a.lref⟩ =
      { events := (getSeq s a.lref).map (fun l => (l.lid, d)),
        result := .ok ⟨d, a.lref⟩ } := fun d =>
    runNotify_all_callable s ⟨d, a.lref⟩ hc
  have h1 : setitem s a i v = runNotify s ⟨a.data.set i v, a.lref⟩ := by
    simp [setitem, ndarray_setitem, hi]
  have h2 : setitem_full s a v = runNotify s ⟨a.data.map fun _ => v, a.lref⟩ := by
    simp [setitem_full, ndarray_setitem_full]
  rw [h1, h2, hrn, hrn]
  exact ⟨rfl, by rw [count_event_map _ _ _ hid, hL],
    rfl, by rw [count_event_map _ _ _ hid, hL]⟩

/-- C2 witness at `s = [[L]]`, `a = ⟨[1, 2], 0⟩`, `a[0] = 9`. -/
theorem C2_witness :
    (setitem [[⟨0, true⟩]] ⟨[1, 2], 0⟩ 0 9).result = .ok ⟨[9, 2], 0⟩ ∧
    (setitem [[⟨0, true⟩]] ⟨[1, 2], 0⟩ 0 9).events.count (0, [9, 2]) = 1 ∧
    (setitem_full [[⟨0, true⟩]] ⟨[1, 2], 0⟩ 9).result = .ok ⟨[9, 9], 0⟩ ∧
    (setitem_full [[⟨0, true⟩]] ⟨[1, 2], 0⟩ 9).events.count (0, [9, 9]) = 1 := by
  exact C2_write_then_notify [[⟨0, true⟩]] ⟨[1, 2], 0⟩ ⟨0, true⟩ 0 9
    (by decide) (by decide) (by decide) (by decide)

/-- C6: `__setattr__` on the `_listeners` attribute performs the assignment
and never notifies; on every other attribute it performs the assignment and
then invokes each listener with the current contents. -/
theorem C6_setattr_guard (s : Seqs) (name : String) (a2 : NDL)
    (hc : ∀ l ∈ getSeq s a2.lref, l.callable = true)
    (hn : name ≠ listenersAttr) :
    ndl_setattr s listenersAttr a2 = { events := [], result := .ok a2 } ∧
    ndl_setattr s name a2 =
      { events := (getSeq s a2.lref).map (fun l => (l.lid, a2.data)),
        result := .ok a2 } := by
  constructor
  · simp [ndl_setattr]
  · rw [ndl_setattr, if_neg hn]
    exact runNotify_all_callable s a2 hc

/-- C6 witness at attribute `"flags"`, `s = [[L]]`, `a2 = ⟨[4], 0⟩`. -/
theorem C6_witness :
    ndl_setattr [[⟨7, true⟩]] listenersAttr ⟨[4], 0⟩
      = { events := [], result := .ok ⟨[4], 0⟩ } ∧
    ndl_setattr [[⟨7, true⟩]] "flags" ⟨[4], 0⟩
      = { events := [(7, [4])], result := .ok ⟨[4], 0⟩ } := by
  have h := C6_setattr_guard [[⟨7, true⟩]] "flags" ⟨[4], 0⟩ (by decide) (by decide)
  exact h

/-- C7: notification is synchronous and in insertion order with no
deduplication: after subscribing `L1` then `L2`, a single in-range write
produces exactly the trace of the pre-existing listeners followed by `L1`
then `L2`, each receiving the post-write contents.  (`L1 = L2` is allowed:
a doubly registered listener is invoked twice.) -/
theorem C7_insertion_order (s : Seqs) (a : NDL) (L1 L2 : Listener)
    (ha : a.lref < s.length)
    (hc : ∀ l ∈ getSeq s a.lref, l.callable = true)
    (h1 : L1.callable = true) (h2 : L2.callable = true)
    (i : Nat) (hi : i < a.data.length) (v : Val) :
    (setitem (talk_to (talk_to s a L1) a L2) a i v).events
      = (getSeq s a.lref).map (fun l => (l.lid, a.data.set i v))
        ++ [(L1.lid, a.data.set i v), (L2.lid, a.data.set i v)] := by
  have ha1 : a.lref < (talk_to s a L1).length := by
    rw [length_talk_to]; exact ha
  have hseq : getSeq (talk_to (talk_to s a L1) a L2) a.lref
      = getSeq s a.lref ++ [L1, L2] := by
    rw [getSeq_talk_to_self _ _ _ ha1, getSeq_talk_to_self _ _ _ ha,
      List.append_assoc]
    rfl
  have hc2 : ∀ l ∈ getSeq (talk_to (talk_to s a L1) a L2) a.lref,
      l.callable = true := by
    rw [hseq]
    intro l hl
    rcases List.mem_append.mp hl with hmem | hmem
    · exact hc l hmem
    · have h12 : l = L1 ∨ l = L2 := by simpa using hmem
      rcases h12 with rfl | rfl
      · exact h1
      · exact h2
  have hset : setitem (talk_to (talk_to s a L1) a L2) a i v
      = runNotify (talk_to (talk_to s a L1) a L2) ⟨a.data.set i v, a.lref⟩ := by
    simp [setitem, ndarray_setitem, hi]
  rw [hset, runNotify_all_callable (talk_to (talk_to s a L1) a L2)
      ⟨a.data.set i v, a.lref⟩ hc2]
  show (getSeq (talk_to (talk_to s a L1) a L2) a.lref).map _ = _
  rw [hseq]
  simp

/-- C7 witness: pre-existing listener 5, then 3 and 3 again (a duplicate),
write `a[1] = 8` on `a = ⟨[1, 2], 0⟩`. -/
theorem C7_witness :
    (setitem (talk_to (talk_to [[⟨5, true⟩]] ⟨[1, 2], 0⟩ ⟨3, true⟩)
        ⟨[1, 2], 0⟩ ⟨3, true⟩) ⟨[1, 2], 0⟩ 1 8).events
      = [(5, [1, 8]), (3, [1, 8]), (3, [1, 8])] := by
  have h := C7_insertion_order [[⟨5, true⟩]] ⟨[1, 2], 0⟩ ⟨3, true⟩ ⟨3, true⟩
    (by decide) (by decide) (by decide) (by decide) 1 (by decide) 8
  exact h

/-- C8: a failed underlying write short-circuits before notification: an
out-of-range `a[i] = v` propagates `IndexError`, and a bare-value `itemset`
on a non-single-element array propagates `ValueError`, in both cases with no
listener invoked. -/
theorem C8_failed_write_no_notify (s : Seqs) (a : NDL) (i : Nat) (v : Val)
    (hi : ¬ i < a.data.length) (hn : a.data.length ≠ 1) :
    setitem s a i v = { events := [], result := .error "IndexError" } ∧
    itemset s a v = { events := [], result := .error "ValueError" } := by
  constructor
  · simp [setitem, ndarray_setitem, hi]
  · simp [itemset, ndarray_itemset1, hn]

/-- C8 witness: `a = ⟨[1, 2], 0⟩`, write at index 5, bare-value itemset. -/
theorem C8_witness :
    setitem [[⟨0, true⟩]] ⟨[1, 2], 0⟩ 5 9
      = { events := [], result := .error "IndexError" } ∧
    itemset [[⟨0, true⟩]] ⟨[1, 2], 0⟩ 9
      = { events := [], result := .error "ValueError" } := by
  exact C8_failed_write_no_notify [[⟨0, true⟩]] ⟨[1, 2], 0⟩ 5 9
    (by decide) (by decide)

/-- C9: `talk_to` appends any value — callable or not — with no validation
(the subscription itself always succeeds and returns nothing); the failure
surfaces only at the next notification, which raises `TypeError` when it
reaches the non-callable entry. -/
theorem C9_noncallable_fails_at_notify (s : Seqs) (a : NDL) (me : Listener)
    (ha : a.lref < s.length) (hnc : me.callable = false)
    (i : Nat) (hi : i < a.data.length) (v : Val) :
    getSeq (talk_to s a me) a.lref = getSeq s a.lref ++ [me] ∧
    (setitem (talk_to s a me) a i v).result = .error "TypeError: not callable" := by
  refine ⟨getSeq_talk_to_self _ _ _ ha, ?_⟩
  have hset : setitem (talk_to s a me) a i v
      = runNotify (talk_to s a me) ⟨a.data.set i v, a.lref⟩ := by
    simp [setitem, ndarray_setitem, hi]
  rw [hset]
  refine runNotify_noncallable _ _ me hnc ?_
  show me ∈ getSeq (talk_to s a me) a.lref
  rw [getSeq_talk_to_self _ _ _ ha]
  simp

/-- C9 witness: non-callable listener 9 on `a = ⟨[1], 0⟩`, then `a[0] = 2`. -/
theorem C9_witness :
    getSeq (talk_to [[]] ⟨[1], 0⟩ ⟨9, false⟩) 0 = [⟨9, false⟩] ∧
    (setitem (talk_to [[]] ⟨[1], 0⟩ ⟨9, false⟩) ⟨[1], 0⟩ 0 2).result
      = .error "TypeError: not callable" := by
  have h := C9_noncallable_fails_at_notify [[]] ⟨[1], 0⟩ ⟨9, false⟩
    (by decide) (by decide) 0 (by decide) 2
  exact h

/-- `a.copy()` evaluates to the same contents, the same `_listeners` store
index, an unchanged store and no notification. -/
theorem ndl_copy_eq (s : Seqs) (a : NDL) :
    ndl_copy s a = ⟨⟨a.data, a.lref⟩, s, []⟩ := by
  simp [ndl_copy, array_finalize, ndl_setattr]

/-- `a[:]` evaluates to the same contents, the same `_listeners` store index,
an unchanged store and no notification. -/
theorem getitem_slice_eq (s : Seqs) (a : NDL) :
    getitem_slice s a = ⟨⟨a.data, a.lref⟩, s, []⟩ := by
  simp [getitem_slice, array_finalize, ndl_setattr]

/-- C1 counterexample: with listener 0 subscribed on `a = ⟨[5], 0⟩`, take
`b = a.copy()`, subscribe listener 1 only on `b`, then write `a[0] = 7`.
Listener 1 IS invoked — `__array_finalize__` gives the copy the very same
`_listeners` list object, so the claimed independence of the copy's listener
sequence fails (the source doctest shows the same behaviour). -/
theorem C1_counterexample :
    (1 : Nat) ∈
      (setitem
        (talk_to (ndl_copy [[⟨0, true⟩]] ⟨[5], 0⟩).store
          (ndl_copy [[⟨0, true⟩]] ⟨[5], 0⟩).arr ⟨1, true⟩)
        ⟨[5], 0⟩ 0 7).events.map Prod.fst := by decide

/-- C1 amended: `b = a.copy()` inherits `a`'s listener sequence — but *by
reference*, not as an independent fork: mutating `b` invokes a listener `L`
subscribed on `a` before the copy, and a listener `L2` subscribed only on `b`
after the copy IS invoked by a subsequent mutation of `a` (the two arrays
keep sharing one sequence object). -/
theorem C1_copy_shares_listeners (s : Seqs) (a : NDL) (L L2 : Listener)
    (ha : a.lref < s.length)
    (hc : ∀ l ∈ getSeq s a.lref, l.callable = true)
    (hL : L ∈ getSeq s a.lref) (h2 : L2.callable = true)
    (i : Nat) (hi : i < a.data.length) (v v2 : Val) :
    (ndl_copy s a).arr.lref = a.lref ∧
    L.lid ∈ (setitem (ndl_copy s a).store (ndl_copy s a).arr i v).events.map
      Prod.fst ∧
    L2.lid ∈ (setitem (talk_to (ndl_copy s a).store (ndl_copy s a).arr L2)
      a i v2).events.map Prod.fst := by
  rw [ndl_copy_eq]
  refine ⟨rfl, ?_, ?_⟩
  · have hset : setitem s (⟨a.data, a.lref⟩ : NDL) i v
        = runNotify s ⟨a.data.set i v, a.lref⟩ := by
      simp [setitem, ndarray_setitem, hi]
    rw [hset, runNotify_all_callable s ⟨a.data.set i v, a.lref⟩ hc]
    exact lid_mem_trace _ _ _ hL
  · have hseq : getSeq (talk_to s (⟨a.data, a.lref⟩ : NDL) L2) a.lref
        = getSeq s a.lref ++ [L2] := getSeq_talk_to_self s ⟨a.data, a.lref⟩ L2 ha
    have hc2 : ∀ l ∈ getSeq (talk_to s (⟨a.data, a.lref⟩ : NDL) L2) a.lref,
        l.callable = true := by
      rw [hseq]
      intro l hl
      rcases List.mem_append.mp hl with hmem | hmem
      · exact hc l hmem
      · have : l = L2 := by simpa using hmem
        exact this ▸ h2
    have hset : setitem (talk_to s (⟨a.data, a.lref⟩ : NDL) L2) a i v2
        = runNotify (talk_to s (⟨a.data, a.lref⟩ : NDL) L2)
            ⟨a.data.set i v2, a.lref⟩ := by
      simp [setitem, ndarray_setitem, hi]
    rw [hset, runNotify_all_callable (talk_to s (⟨a.data, a.lref⟩ : NDL) L2)
        ⟨a.data.set i v2, a.lref⟩ hc2]
    show L2.lid ∈ ((getSeq (talk_to s (⟨a.data, a.lref⟩ : NDL) L2) a.lref).map
      (fun l => (l.lid, a.data.set i v2))).map Prod.fst
    rw [hseq]
    exact lid_mem_trace _ _ _ (by simp)

/-- C1 amended-claim witness: listener 0 on `a = ⟨[5], 0⟩`, copy, subscribe
listener 1 on the copy, mutate both. -/
theorem C1_witness :
    (ndl_copy [[⟨0, true⟩]] ⟨[5], 0⟩).arr.lref = 0 ∧
    (0 : Nat) ∈ (setitem (ndl_copy [[⟨0, true⟩]] ⟨[5], 0⟩).store
      (ndl_copy [[⟨0, true⟩]] ⟨[5], 0⟩).arr 0 7).events.map Prod.fst ∧
    (1 : Nat) ∈ (setitem
      (talk_to (ndl_copy [[⟨0, true⟩]] ⟨[5], 0⟩).store
        (ndl_copy [[⟨0, true⟩]] ⟨[5], 0⟩).arr ⟨1, true⟩)
      ⟨[5], 0⟩ 0 7).events.map Prod.fst := by
  have h := C1_copy_shares_listeners [[⟨0, true⟩]] ⟨[5], 0⟩ ⟨0, true⟩ ⟨1, true⟩
    (by decide) (by decide) (by decide) (by decide) 0 (by decide) 7 7
  exact h

/-- C3: every Observable Array the library derives from an existing one holds
the same listener sequence object: construction from an observable input
shares its store index, `v = a[:]` shares it, subscribing `L` through `a`
then mutating `v` invokes `L`, and subscribing `L2` through `v` then mutating
`a` invokes `L2`. -/
theorem C3_views_share_sequence (s : Seqs) (a : NDL) (L L2 : Listener)
    (d : List Val)
    (ha : a.lref < s.length)
    (hc : ∀ l ∈ getSeq s a.lref, l.callable = true)
    (hcL : L.callable = true) (hcL2 : L2.callable = true)
    (i : Nat) (hi : i < a.data.length) (v v2 : Val) :
    (ndl_new s d (some a)).arr.lref = a.lref ∧
    (getitem_slice s a).arr.lref = a.lref ∧
    L.lid ∈ (setitem (talk_to (getitem_slice s a).store a L)
      (getitem_slice s a).arr i v).events.map Prod.fst ∧
    L2.lid ∈ (setitem (talk_to (getitem_slice s a).store
      (getitem_slice s a).arr L2) a i v2).events.map Prod.fst := by
  rw [getitem_slice_eq]
  refine ⟨rfl, rfl, ?_, ?_⟩
  · have hseq : getSeq (talk_to s a L) a.lref = getSeq s a.lref ++ [L] :=
      getSeq_talk_to_self s a L ha
    have hc2 : ∀ l ∈ getSeq (talk_to s a L) a.lref, l.callable = true := by
      rw [hseq]
      intro l hl
      rcases List.mem_append.mp hl with hmem | hmem
      · exact hc l hmem
      · have : l = L := by simpa using hmem
        exact this ▸ hcL
    have hset : setitem (talk_to s a L) (⟨a.data, a.lref⟩ : NDL) i v
        = runNotify (talk_to s a L) ⟨a.data.set i v, a.lref⟩ := by
      simp [setitem, ndarray_setitem, hi]
    rw [hset, runNotify_all_callable (talk_to s a L)
        ⟨a.data.set i v, a.lref⟩ hc2]
    show L.lid ∈ ((getSeq (talk_to s a L) a.lref).map
      (fun l => (l.lid, a.data.set i v))).map Prod.fst
    rw [hseq]
    exact lid_mem_trace _ _ _ (by simp)
  · have hseq : getSeq (talk_to s (⟨a.data, a.lref⟩ : NDL) L2) a.lref
        = getSeq s a.lref ++ [L2] := getSeq_talk_to_self s ⟨a.data, a.lref⟩ L2 ha
    have hc2 : ∀ l ∈ getSeq (talk_to s (⟨a.data, a.lref⟩ : NDL) L2) a.lref,
        l.callable = true := by
      rw [hseq]
      intro l hl
      rcases List.mem_append.mp hl with hmem | hmem
      · exact hc l hmem
      · have : l = L2 := by simpa using hmem
        exact this ▸ hcL2
    have hset : setitem (talk_to s (⟨a.data, a.lref⟩ : NDL) L2) a i v2
        = runNotify (talk_to s (⟨a.data, a.lref⟩ : NDL) L2)
            ⟨a.data.set i v2, a.lref⟩ := by
      simp [setitem, ndarray_setitem, hi]
    rw [hset, runNotify_all_callable (talk_to s (⟨a.data, a.lref⟩ : NDL) L2)
        ⟨a.data.set i v2, a.lref⟩ hc2]
    show L2.lid ∈ ((getSeq (talk_to s (⟨a.data, a.lref⟩ : NDL) L2) a.lref).map
      (fun l => (l.lid, a.data.set i v2))).map Prod.fst
    rw [hseq]
    exact lid_mem_trace _ _ _ (by simp)

/-- C3 witness: `a = ⟨[1, 2], 0⟩` with empty sequence, derive `v = a[:]`,
subscribe listener 4 through `a` and listener 6 through `v`, mutate each. -/
theorem C3_witness :
    (ndl_new [[]] [3] (some ⟨[1, 2], 0⟩)).arr.lref = 0 ∧
    (getitem_slice [[]] ⟨[1, 2], 0⟩).arr.lref = 0 ∧
    (4 : Nat) ∈ (setitem (talk_to (getitem_slice [[]] ⟨[1, 2], 0⟩).store
      ⟨[1, 2], 0⟩ ⟨4, true⟩) (getitem_slice [[]] ⟨[1, 2], 0⟩).arr 0 9).events.map
        Prod.fst ∧
    (6 : Nat) ∈ (setitem (talk_to (getitem_slice [[]] ⟨[1, 2], 0⟩).store
      (getitem_slice [[]] ⟨[1, 2], 0⟩).arr ⟨6, true⟩) ⟨[1, 2], 0⟩ 0 9).events.map
        Prod.fst := by
  have h := C3_views_share_sequence [[]] ⟨[1, 2], 0⟩ ⟨4, true⟩ ⟨6, true⟩ [3]
    (by decide) (by decide) (by decide) (by decide) 0 (by decide) 9 9
  exact h

/-- C5: reading, subscribing and constructing never notify: `__new__`,
`__array_finalize__`, copy, slice read and scalar-extraction read all
produce an empty invocation trace (and `talk_to` only touches the store —
it has no notification channel at all). -/
theorem C5_no_spurious_notification (s : Seqs) (a : NDL) (d : List Val)
    (inp : Option NDL) (objL : Option Nat) (i : Nat)
    (x : NDL) (s2 : Seqs) (evs : List Event)
    (hx : getitem_index s a i = .ok (x, s2, evs)) :
    (ndl_new s d inp).events = [] ∧
    (array_finalize s d objL).events = [] ∧
    (getitem_slice s a).events = [] ∧
    (ndl_copy s a).events = [] ∧
    evs = [] := by
  refine ⟨?_, ?_, ?_, ?_, ?_⟩
  · cases inp <;> simp [ndl_new, array_finalize, ndl_setattr]
  · cases objL <;> simp [array_finalize, ndl_setattr]
  · rw [getitem_slice_eq]
  · rw [ndl_copy_eq]
  · cases hg : a.data.get? i with
    | some raw =>
      simp only [getitem_index, hg] at hx
      simp [ndl_new, array_finalize, ndl_setattr] at hx
      exact hx.2.2
    | none =>
      simp only [getitem_index, hg] at hx
      exact absurd hx (by simp)

/-- C5 witness: `a = ⟨[3], 0⟩`, fresh construction with data `[2]`, and the
read `a[0]`. -/
theorem C5_witness :
    (ndl_new [[]] [2] none).events = [] ∧
    (array_finalize [[]] [2] none).events = [] ∧
    (getitem_slice [[]] ⟨[3], 0⟩).events = [] ∧
    (ndl_copy [[]] ⟨[3], 0⟩).events = [] ∧
    ([] : List Event) = [] := by
  have h := C5_no_spurious_notification [[]] ⟨[3], 0⟩ [2] none none 0
    ⟨[3], 1⟩ [[], []] [] (by rfl)
  exact h

/-- Evaluating a successful scalar-extraction read `a[i]`: the result is a
freshly wrapped zero-dimensional observable at the new store slot `s.length`,
the store is the old one extended by that slot and populated through the
`talk_to` loop, and no listener was invoked. -/
theorem getitem_index_spec (s : Seqs) (a : NDL) (i : Nat) (raw : Val)
    (hi : a.data.get? i = some raw) :
    getitem_index s a i =
      .ok (⟨[raw], s.length⟩,
        (getSeq s a.lref).foldl (fun st l => talk_to st ⟨[raw], s.length⟩ l)
          (s ++ [[]]),
        []) := by
  simp only [getitem_index, hi, ndl_new, array_finalize, ndl_setattr]
  rw [getSeq_append_empty]
  simp

/-- The extraction loop fills the fresh slot with exactly the source's
listeners. -/
theorem extraction_fills_fresh_slot (s : Seqs) (r : Nat) (d : List Val) :
    getSeq ((getSeq s r).foldl (fun st l => talk_to st ⟨d, s.length⟩ l)
      (s ++ [[]])) s.length = getSeq s r := by
  have hlen : (⟨d, s.length⟩ : NDL).lref < (s ++ [[]]).length := by
    simp
  rw [fold_talk_to_self ⟨d, s.length⟩ (getSeq s r) (s ++ [[]]) hlen]
  rw [show getSeq (s ++ [[]]) (⟨d, s.length⟩ : NDL).lref = ([] : List Listener)
    from getSeq_append_right s [[]]]
  rfl

/-- The extraction loop leaves every pre-existing store slot untouched. -/
theorem extraction_preserves_old_slots (s : Seqs) (r r2 : Nat) (d : List Val)
    (h : r2 < s.length) :
    getSeq ((getSeq s r).foldl (fun st l => talk_to st ⟨d, s.length⟩ l)
      (s ++ [[]])) r2 = getSeq s r2 := by
  rw [fold_talk_to_other ⟨d, s.length⟩ r2 (by show r2 ≠ s.length; omega) (getSeq s r) (s ++ [[]])]
  exact getSeq_append_left s [[]] r2 h

/-- C4: the scalar-extraction read `a[i]` re-wraps the bare element as a new
Observable Array `x` whose listener sequence is a distinct, freshly allocated
sequence object holding, at the moment of extraction, each of `a`'s listeners
copied entry by entry; mutating `x` invokes `L`, while a listener `L2` with
an identity foreign to `a`'s sequence, subscribed only on `x` afterwards, is
never invoked by a subsequent mutation of `a`. -/
theorem C4_scalar_extraction_duplicates (s : Seqs) (a : NDL) (L L2 : Listener)
    (raw : Val) (i j : Nat) (v v2 : Val)
    (hi : a.data.get? i = some raw)
    (ha : a.lref < s.length)
    (hc : ∀ l ∈ getSeq s a.lref, l.callable = true)
    (hL : L ∈ getSeq s a.lref)
    (hfresh : ∀ l ∈ getSeq s a.lref, l.lid ≠ L2.lid)
    (hj : j < a.data.length) :
    ∃ s2 : Seqs,
      getitem_index s a i = .ok (⟨[raw], s.length⟩, s2, []) ∧
      (⟨[raw], s.length⟩ : NDL).lref ≠ a.lref ∧
      getSeq s2 s.length = getSeq s a.lref ∧
      L.lid ∈ (itemset s2 ⟨[raw], s.length⟩ v).events.map Prod.fst ∧
      L2.lid ∉ (setitem (talk_to s2 ⟨[raw], s.length⟩ L2) a j v2).events.map
        Prod.fst := by
  refine ⟨(getSeq s a.lref).foldl (fun st l => talk_to st ⟨[raw], s.length⟩ l)
      (s ++ [[]]),
    getitem_index_spec s a i raw hi,
    by show s.length ≠ a.lref; omega,
    extraction_fills_fresh_slot s a.lref [raw], ?_, ?_⟩
  · have hx : itemset ((getSeq s a.lref).foldl
        (fun st l => talk_to st ⟨[raw], s.length⟩ l) (s ++ [[]]))
        (⟨[raw], s.length⟩ : NDL) v
        = runNotify ((getSeq s a.lref).foldl
            (fun st l => talk_to st ⟨[raw], s.length⟩ l) (s ++ [[]]))
          ⟨[v], s.length⟩ := by
      simp [itemset, ndarray_itemset1]
    have hcx : ∀ l ∈ getSeq ((getSeq s a.lref).foldl
        (fun st l => talk_to st ⟨[raw], s.length⟩ l) (s ++ [[]])) s.length,
        l.callable = true := by
      rw [extraction_fills_fresh_slot s a.lref [raw]]
      exact hc
    rw [hx, runNotify_all_callable _ ⟨[v], s.length⟩ hcx]
    show L.lid ∈ ((getSeq ((getSeq s a.lref).foldl
      (fun st l => talk_to st ⟨[raw], s.length⟩ l) (s ++ [[]])) s.length).map
        (fun l => (l.lid, [v]))).map Prod.fst
    rw [extraction_fills_fresh_slot s a.lref [raw]]
    exact lid_mem_trace _ _ _ hL
  · have hpres : getSeq (talk_to ((getSeq s a.lref).foldl
        (fun st l => talk_to st ⟨[raw], s.length⟩ l) (s ++ [[]]))
        (⟨[raw], s.length⟩ : NDL) L2) a.lref = getSeq s a.lref := by
      rw [getSeq_talk_to_ne _ _ _ _ (by show a.lref ≠ s.length; omega)]
      exact extraction_preserves_old_slots s a.lref a.lref [raw] ha
    have hset : setitem (talk_to ((getSeq s a.lref).foldl
        (fun st l => talk_to st ⟨[raw], s.length⟩ l) (s ++ [[]]))
        (⟨[raw], s.length⟩ : NDL) L2) a j v2
        = runNotify (talk_to ((getSeq s a.lref).foldl
            (fun st l => talk_to st ⟨[raw], s.length⟩ l) (s ++ [[]]))
            (⟨[raw], s.length⟩ : NDL) L2) ⟨a.data.set j v2, a.lref⟩ := by
      simp [setitem, ndarray_setitem, hj]
    have hca : ∀ l ∈ getSeq (talk_to ((getSeq s a.lref).foldl
        (fun st l => talk_to st ⟨[raw], s.length⟩ l) (s ++ [[]]))
        (⟨[raw], s.length⟩ : NDL) L2) a.lref, l.callable = true := by
      rw [hpres]; exact hc
    rw [hset, runNotify_all_callable _ ⟨a.data.set j v2, a.lref⟩ hca]
    show L2.lid ∉ ((getSeq (talk_to ((getSeq s a.lref).foldl
      (fun st l => talk_to st ⟨[raw], s.length⟩ l) (s ++ [[]]))
      (⟨[raw], s.length⟩ : NDL) L2) a.lref).map
        (fun l => (l.lid, a.data.set j v2))).map Prod.fst
    rw [hpres]
    exact lid_not_mem_trace _ _ _ hfresh

/-- C4 witness: `a = ⟨[5, 6], 0⟩` with listener 0, extract `x = a[0]`,
mutate `x` with 7, subscribe listener 1 on `x`, mutate `a[1] = 8`. -/
theorem C4_witness :
    ∃ s2 : Seqs,
      getitem_index [[⟨0, true⟩]] ⟨[5, 6], 0⟩ 0 = .ok (⟨[5], 1⟩, s2, []) ∧
      (⟨[5], 1⟩ : NDL).lref ≠ 0 ∧
      getSeq s2 1 = [⟨0, true⟩] ∧
      (0 : Nat) ∈ (itemset s2 ⟨[5], 1⟩ 7).events.map Prod.fst ∧
      (1 : Nat) ∉ (setitem (talk_to s2 ⟨[5], 1⟩ ⟨1, true⟩)
        ⟨[5, 6], 0⟩ 1 8).events.map Prod.fst := by
  have h := C4_scalar_extraction_duplicates [[⟨0, true⟩]] ⟨[5, 6], 0⟩
    ⟨0, true⟩ ⟨1, true⟩ 5 0 1 7 8
    (by rfl) (by decide) (by decide) (by decide) (by decide) (by decide)
  exact h

/-- C10: mutating the re-wrapped scalar extraction `x = a[i]` via the
bare-value itemset leaves `a` unaffected — `x` wraps an independent
one-element buffer, the mutation returns a new instance without writing the
store, and `a`'s listener sequence entry is exactly what it was before the
extraction — while the notification passes `x`'s own post-mutation
zero-dimensional contents `[v]`, not `a`'s contents, to the listeners copied
at extraction time. -/
theorem C10_extraction_mutation_frame (s : Seqs) (a : NDL) (raw : Val)
    (i : Nat) (v : Val)
    (hi : a.data.get? i = some raw)
    (ha : a.lref < s.length)
    (hc : ∀ l ∈ getSeq s a.lref, l.callable = true) :
    ∃ s2 : Seqs,
      getitem_index s a i = .ok (⟨[raw], s.length⟩, s2, []) ∧
      getSeq s2 a.lref = getSeq s a.lref ∧
      (itemset s2 ⟨[raw], s.length⟩ v).result = .ok ⟨[v], s.length⟩ ∧
      (itemset s2 ⟨[raw], s.length⟩ v).events
        = (getSeq s a.lref).map (fun l => (l.lid, [v])) := by
  refine ⟨(getSeq s a.lref).foldl (fun st l => talk_to st ⟨[raw], s.length⟩ l)
      (s ++ [[]]),
    getitem_index_spec s a i raw hi,
    extraction_preserves_old_slots s a.lref a.lref [raw] ha, ?_, ?_⟩
  all_goals
    have hx : itemset ((getSeq s a.lref).foldl
        (fun st l => talk_to st ⟨[raw], s.length⟩ l) (s ++ [[]]))
        (⟨[raw], s.length⟩ : NDL) v
        = runNotify ((getSeq s a.lref).foldl
            (fun st l => talk_to st ⟨[raw], s.length⟩ l) (s ++ [[]]))
          ⟨[v], s.length⟩ := by
      simp [itemset, ndarray_itemset1]
    have hcx : ∀ l ∈ getSeq ((getSeq s a.lref).foldl
        (fun st l => talk_to st ⟨[raw], s.length⟩ l) (s ++ [[]])) s.length,
        l.callable = true := by
      rw [extraction_fills_fresh_slot s a.lref [raw]]
      exact hc
    rw [hx, runNotify_all_callable _ ⟨[v], s.length⟩ hcx]
  show (getSeq ((getSeq s a.lref).foldl
    (fun st l => talk_to st ⟨[raw], s.length⟩ l) (s ++ [[]])) s.length).map
      (fun l => (l.lid, [v])) = _
  rw [extraction_fills_fresh_slot s a.lref [raw]]

/-- C10 witness: `a = ⟨[5], 0⟩` with listener 2, extract `x = a[0]`, then
`x.itemset(9)`. -/
theorem C10_witness :
    ∃ s2 : Seqs,
      getitem_index [[⟨2, true⟩]] ⟨[5], 0⟩ 0 = .ok (⟨[5], 1⟩, s2, []) ∧
      getSeq s2 0 = [⟨2, true⟩] ∧
      (itemset s2 ⟨[5], 1⟩ 9).result = .ok ⟨[9], 1⟩ ∧
      (itemset s2 ⟨[5], 1⟩ 9).events = [(2, [9])] := by
  have h := C10_extraction_mutation_frame [[⟨2, true⟩]] ⟨[5], 0⟩ 5 0 9
    (by rfl) (by decide) (by decide)
  exact h

end NdarrayListener
